import Mathlib

/-!
Verification of the Market-Intelligence tool's alert-matching and
data-normalization pipeline against its natural-language specification.

The Python source is shallowly embedded: pandas/SQL cell values become
`Option` types (`none` models SQL NULL / pandas NaN), numeric cells become
exact rationals (every numeric literal involved is exactly representable),
and the ad-hoc SQL built by `DealSourcingAlerts.test_alert` is embedded as
a filter over an in-memory deal list, reading `col LIKE '%kw%'` as
substring containment for wildcard-free keywords.
-/

/-- Boolean test that the char list `p` is a prefix of `s` (list-level model
of Python's `str.startswith`, used to define substring search). -/
def strPrefixB : List Char → List Char → Bool
  | [], _ => true
  | _ :: _, [] => false
  | a :: as, b :: bs => a == b && strPrefixB as bs

/-- Boolean substring search: `substrB p s` is `true` iff `p` occurs as a
contiguous run inside `s`.  Models Python's `p in s` and SQL `LIKE '%p%'`
(for patterns without wildcard characters). -/
def substrB (p : List Char) : List Char → Bool
  | [] => strPrefixB p []
  | c :: rest => strPrefixB p (c :: rest) || substrB p rest

/-- String-level substring containment: does `s` contain `pat`? -/
def strContainsSubstr (s pat : String) : Bool :=
  substrB pat.data s.data

theorem strPrefixB_iff (p : List Char) : ∀ s, strPrefixB p s = true ↔ p <+: s := by
  induction p with
  | nil => intro s; simp [strPrefixB]
  | cons a as ih =>
    intro s
    cases s with
    | nil => simp [strPrefixB]
    | cons b bs =>
      simp [strPrefixB, List.cons_prefix_cons, ih bs]

theorem substrB_iff (p s : List Char) : substrB p s = true ↔ p <:+: s := by
  induction s with
  | nil =>
    simp [substrB, strPrefixB_iff, List.prefix_nil, List.infix_nil]
  | cons c rest ih =>
    simp [substrB, strPrefixB_iff, ih, List.infix_cons_iff]

/-- A row of the `deals` table, restricted to the columns that
`DealSourcingAlerts.test_alert` reads.  `none` models SQL NULL; `deal_value`
(SQLite REAL) is modelled as an exact rational; `announcement_date` is a
day number (every claim below is insensitive to the date encoding). -/
structure Deal where
  target_name : String
  acquirer_name : String
  deal_value : Option ℚ
  announcement_date : Option Int
  industry : Option String
deriving DecidableEq, Repr

/-- The filter specification stored with an alert (`Alert.filters` in
`deal_sourcing_alerts.py`).  `min_deal_size` defaults to 0 when absent
(Python `filters.get` with default 0), so it is a plain rational. -/
structure AlertFilters where
  industries : List String
  min_deal_size : ℚ
  max_deal_size : Option ℚ
deriving DecidableEq, Repr

/-- An alert, restricted to the fields `test_alert` reads. -/
structure Alert where
  keywords : List String
  filters : AlertFilters
deriving DecidableEq, Repr

/-- Keyword disjunction of `test_alert`'s SQL: for each keyword the source
emits `target_name LIKE '%kw%' OR acquirer_name LIKE '%kw%'`, all joined
with OR. -/
def matchesKeywords (a : Alert) (d : Deal) : Bool :=
  a.keywords.any fun kw =>
    strContainsSubstr d.target_name kw || strContainsSubstr d.acquirer_name kw

/-- Industry filter: applied only when `filters.get('industries')` is truthy
(a non-empty list); SQL `industry = 'x'` is false on a NULL industry. -/
def matchesIndustry (f : AlertFilters) (d : Deal) : Bool :=
  if f.industries.isEmpty then true
  else
    match d.industry with
    | some ind => f.industries.contains ind
    | none => false

/-- Lower bound: applied only when `filters.get('min_deal_size', 0) > 0`;
SQL `deal_value >= m` is false on a NULL deal value. -/
def matchesMinSize (f : AlertFilters) (d : Deal) : Bool :=
  if f.min_deal_size > 0 then
    match d.deal_value with
    | some v => decide (f.min_deal_size ≤ v)
    | none => false
  else true

/-- Upper bound: applied only when `filters.get('max_deal_size')` is truthy
(present and non-zero); SQL `deal_value <= m` is false on a NULL value. -/
def matchesMaxSize (f : AlertFilters) (d : Deal) : Bool :=
  match f.max_deal_size with
  | some m =>
    if m = 0 then true
    else
      match d.deal_value with
      | some v => decide (v ≤ m)
      | none => false
  | none => true

/-- Recency bound of `test_alert`'s SQL:
`announcement_date >= date('now', '-30 days')`, false on NULL. -/
def isRecent (today : Int) (d : Deal) : Bool :=
  match d.announcement_date with
  | some dt => decide (today - 30 ≤ dt)
  | none => false

/-- Embedding of `DealSourcingAlerts.test_alert`: the SQL query it builds
selects the deals matching some keyword, all active filters, and the 30-day
recency bound.  `today` stands for SQLite's `date('now')`. -/
def test_alert (today : Int) (a : Alert) (deals : List Deal) : List Deal :=
  deals.filter fun d =>
    matchesKeywords a d && matchesIndustry a.filters d &&
    matchesMinSize a.filters d && matchesMaxSize a.filters d && isRecent today d

/-- Modelled from the spec: `evaluate_all (alert, deals)` — routine
evaluation without the recency bound — is named in the spec but has no
function of its own in the source (the source's `run_all_alerts` reuses
`test_alert`, which adds the 30-day bound).  Per the spec it applies the
same keyword/filter predicate with no recency restriction. -/
def evaluate_all (a : Alert) (deals : List Deal) : List Deal :=
  deals.filter fun d =>
    matchesKeywords a d && matchesIndustry a.filters d &&
    matchesMinSize a.filters d && matchesMaxSize a.filters d

/-- C1: with an empty industry list, `min_deal_size = 0` and no
`max_deal_size`, evaluating an alert with keyword list `["acquisition"]`
in `evaluate_all` mode on a one-deal set whose deal's target name contains
`"acquisition"` returns exactly that deal; and in general a deal satisfies
the keyword predicate iff some keyword of the alert occurs as a substring
of its target name or of its acquirer name. -/
theorem c1_keyword_predicate_evaluate_all (a : Alert) (d : Deal)
    (h1 : a.filters.industries = [])
    (h2 : a.filters.min_deal_size = 0)
    (h3 : a.filters.max_deal_size = none)
    (h4 : a.keywords = ["acquisition"])
    (h5 : "acquisition".data <:+: d.target_name.data) :
    evaluate_all a [d] = [d] ∧
    ∀ (a' : Alert) (d' : Deal),
      matchesKeywords a' d' = true ↔
        ∃ kw ∈ a'.keywords,
          kw.data <:+: d'.target_name.data ∨ kw.data <:+: d'.acquirer_name.data := by
  constructor
  · have hk : matchesKeywords a d = true := by
      simp only [matchesKeywords, h4, List.any_cons, List.any_nil, Bool.or_false,
        strContainsSubstr, Bool.or_eq_true, substrB_iff]
      exact Or.inl h5
    simp [evaluate_all, hk, matchesIndustry, h1, matchesMinSize, h2, matchesMaxSize, h3]
  · intro a' d'
    simp [matchesKeywords, strContainsSubstr, substrB_iff]

/-- C1 witness: a concrete alert and deal satisfying the hypotheses. -/
theorem c1_keyword_predicate_evaluate_all_witness :
    evaluate_all ⟨["acquisition"], ⟨[], 0, none⟩⟩
      [⟨"Mega acquisition of Acme", "BigCorp", some 120, some 0, none⟩] =
      [⟨"Mega acquisition of Acme", "BigCorp", some 120, some 0, none⟩] :=
  (c1_keyword_predicate_evaluate_all ⟨["acquisition"], ⟨[], 0, none⟩⟩
    ⟨"Mega acquisition of Acme", "BigCorp", some 120, some 0, none⟩
    rfl rfl rfl rfl (by decide)).1

/-- C6: an alert whose filters set `min_deal_size = 100` and
`max_deal_size = 50` (inverted bounds) matches no deal at all, in both
`test_alert` mode and `evaluate_all` mode, and evaluation is a total
function (no exception). -/
theorem c6_inverted_bounds_empty (a : Alert) (deals : List Deal) (today : Int)
    (h1 : a.filters.min_deal_size = 100)
    (h2 : a.filters.max_deal_size = some 50) :
    test_alert today a deals = [] ∧ evaluate_all a deals = [] := by
  have key : ∀ d : Deal,
      (matchesMinSize a.filters d && matchesMaxSize a.filters d) = false := by
    intro d
    cases hv : d.deal_value with
    | none => simp [matchesMinSize, matchesMaxSize, h1, h2, hv]
    | some v =>
      simp only [matchesMinSize, matchesMaxSize, h1, h2, hv]
      norm_num
      intro hle
      linarith
  constructor
  · rw [test_alert, List.filter_eq_nil_iff]
    intro d _
    have := key d
    cases hmin : matchesMinSize a.filters d <;>
      cases hmax : matchesMaxSize a.filters d <;>
      simp_all
  · rw [evaluate_all, List.filter_eq_nil_iff]
    intro d _
    have := key d
    cases hmin : matchesMinSize a.filters d <;>
      cases hmax : matchesMaxSize a.filters d <;>
      simp_all

/-- C6 witness: a concrete inverted-bounds alert against a concrete deal
list (one deal of value 75, which lies between the inverted bounds). -/
theorem c6_inverted_bounds_empty_witness :
    test_alert 0 ⟨["a"], ⟨[], 100, some 50⟩⟩
      [⟨"acme", "beta", some 75, some 0, none⟩] = [] ∧
    evaluate_all ⟨["a"], ⟨[], 100, some 50⟩⟩
      [⟨"acme", "beta", some 75, some 0, none⟩] = [] :=
  c6_inverted_bounds_empty ⟨["a"], ⟨[], 100, some 50⟩⟩
    [⟨"acme", "beta", some 75, some 0, none⟩] 0 rfl rfl

/-- Model of Python `str.replace(pat, rep)` for a one-character pattern
(the source only ever replaces the single characters `$`, `,`, `B`, `M`). -/
def replaceChar (pat : Char) (rep : List Char) : List Char → List Char
  | [] => []
  | c :: rest =>
    if c == pat then rep ++ replaceChar pat rep rest
    else c :: replaceChar pat rep rest

/-- String-level wrapper for `replaceChar`. -/
def strReplace (s : String) (pat : Char) (rep : String) : String :=
  String.mk (replaceChar pat rep.data s.data)

/-- Splitting a char list on a separator, with Python `str.split` semantics:
the empty list yields one empty group, and separators delimit (possibly
empty) groups. -/
def splitCharList (sep : Char) : List Char → List (List Char)
  | [] => [[]]
  | c :: rest =>
    if c == sep then [] :: splitCharList sep rest
    else
      match splitCharList sep rest with
      | [] => [[c]]
      | g :: gs => (c :: g) :: gs

/-- Numeric value of a digit list (most significant first). -/
def digitsVal (cs : List Char) : ℕ :=
  cs.foldl (fun a c => a * 10 + (c.toNat - 48)) 0

/-- Model of `pd.to_numeric(·, errors='coerce')` on a cleaned cell string,
for plain decimal literals: an optional sign, then digits with at most one
decimal point (at least one digit in total).  Anything else coerces to
NaN, modelled as `none`; the numeric result is an exact rational. -/
def parseDecimal (s : String) : Option ℚ :=
  let go : List Char → Option ℚ := fun cs =>
    match splitCharList '.' cs with
    | [ip] =>
      if ip ≠ [] ∧ ip.all Char.isDigit then some (digitsVal ip) else none
    | [ip, fp] =>
      if (ip ≠ [] ∨ fp ≠ []) ∧ ip.all Char.isDigit ∧ fp.all Char.isDigit then
        some ((digitsVal ip : ℚ) + (digitsVal fp : ℚ) / (10 : ℚ) ^ fp.length)
      else none
    | _ => none
  match s.data with
  | '-' :: rest => (go rest).map (fun q => -q)
  | '+' :: rest => go rest
  | cs => go cs

/-- Cell-level embedding of the `deal_value` cleanup in
`EnhancedDataIngestion.process_mergermarket_data`: strip `$`, strip `,`,
then `pd.to_numeric(errors='coerce')`. -/
def process_mergermarket_deal_value (s : String) : Option ℚ :=
  parseDecimal (strReplace (strReplace s '$' "") ',' "")

/-- Cell-level embedding of the `market_cap` cleanup in
`EnhancedDataIngestion.process_index_data`: strip `$`, replace the letter
`B` by the digit string `000000000`, replace `M` by `000000`, then
`pd.to_numeric(errors='coerce')`. -/
def process_index_market_cap (s : String) : Option ℚ :=
  parseDecimal
    (strReplace (strReplace (strReplace s '$' "") 'B' "000000000") 'M' "000000")

/-- C2 (code evaluated at the failing input): the source replaces the
letter `B` by the digit string `000000000`, which multiplies an integer
prefix by 1e9 but merely appends zeros after a decimal point, so
`"2.5B"` normalizes to `2.5` — not to `2500000000` as the claim states.
`"2B"` and `"750M"` do match the intended ×1e9 / ×1e6 readings, and an
unparsable cell such as `"n/a"` becomes null. -/
theorem c2_market_cap_normalization_eval :
    process_index_market_cap "2.5B" = some (5 / 2 : ℚ) ∧
    process_index_market_cap "2.5B" ≠ some 2500000000 ∧
    process_index_market_cap "2B" = some 2000000000 ∧
    process_index_market_cap "750M" = some 750000000 ∧
    process_index_market_cap "n/a" = none := by
  have h : process_index_market_cap "2.5B" =
      some ((digitsVal ['2'] : ℚ) +
        (digitsVal ['5', '0', '0', '0', '0', '0', '0', '0', '0', '0'] : ℚ) /
          (10 : ℚ) ^ 10) := rfl
  have h2 : digitsVal ['2'] = 2 := by decide
  have h3 : digitsVal ['5', '0', '0', '0', '0', '0', '0', '0', '0', '0'] =
      5000000000 := by decide
  have hval : process_index_market_cap "2.5B" = some (5 / 2 : ℚ) := by
    rw [h, h2, h3]; norm_num
  refine ⟨hval, ?_, by rfl, by rfl, by rfl⟩
  rw [hval]
  intro hc
  have : (5 / 2 : ℚ) = 2500000000 := Option.some.inj hc
  norm_num at this

/-- C3: the deal-value normalizer strips `$` and `,` and coerces, so
`"$1,234.50"` yields exactly `1234.50`, and an unparsable cell such as
`"n/a"` becomes null rather than an error (the normalizer is a total
function, so the row survives). -/
theorem c3_deal_value_normalization :
    process_mergermarket_deal_value "$1,234.50" = some (1234.5 : ℚ) ∧
    process_mergermarket_deal_value "n/a" = none := by
  have h : process_mergermarket_deal_value "$1,234.50" =
      some ((digitsVal ['1', '2', '3', '4'] : ℚ) +
        (digitsVal ['5', '0'] : ℚ) / (10 : ℚ) ^ 2) := rfl
  have h2 : digitsVal ['1', '2', '3', '4'] = 1234 := by decide
  have h3 : digitsVal ['5', '0'] = 50 := by decide
  refine ⟨?_, by rfl⟩
  rw [h, h2, h3]
  norm_num

/-- Model of Python `sep.join(strings)`. -/
def joinSep (sep : String) : List String → String
  | [] => ""
  | [s] => s
  | s :: rest => s ++ sep ++ joinSep sep rest

/-- A schema entry of `EnhancedDataIngestion.data_schemas`. -/
structure SourceSchema where
  required_columns : List String
  optional_columns : List String
deriving DecidableEq, Repr

/-- The schema registry, transcribed from the `data_schemas` dictionary in
`EnhancedDataIngestion.__init__`. -/
def data_schemas : List (String × SourceSchema) :=
  [("mergermarket",
    ⟨["deal_id", "target_name", "acquirer_name", "deal_value",
      "announcement_date"],
     ["industry", "sector", "geography", "deal_type", "status",
      "completion_date"]⟩),
   ("preqin",
    ⟨["fund_name", "target_company", "investment_amount", "investment_date"],
     ["fund_type", "industry", "geography", "stage", "exit_date",
      "exit_value"]⟩),
   ("sec_filings",
    ⟨["company_name", "filing_type", "filing_date", "content"],
     ["cik", "ticker", "form_type", "url"]⟩),
   ("index_constituents",
    ⟨["company_name", "ticker", "index_name"],
     ["sector", "industry", "market_cap", "weight", "country"]⟩),
   ("press_releases",
    ⟨["company_name", "title", "date", "content"],
     ["source", "url", "sentiment", "keywords"]⟩)]

/-- Dictionary lookup `self.data_schemas[data_source]`, guarded in the
source by `data_source not in self.data_schemas`. -/
def lookupSchema (source : String) : Option SourceSchema :=
  (data_schemas.find? fun p => p.1 == source).map Prod.snd

/-- A pandas DataFrame, restricted to what `validate_data_schema` reads:
its column names and, per column, the per-row null flags (`isna`).
`nrows` models `len(df)`. -/
structure DataFrame where
  nrows : ℕ
  cols : List (String × List Bool)
deriving DecidableEq, Repr

/-- Column names, modelling `df.columns`. -/
def DataFrame.columns (df : DataFrame) : List String :=
  df.cols.map Prod.fst

/-- Null count of a column, modelling `df[c].isna().sum()`. -/
def DataFrame.nullCount (df : DataFrame) (c : String) : ℕ :=
  match df.cols.find? (fun p => p.1 == c) with
  | some p => p.2.count true
  | none => 0

/-- The dictionary returned by `validate_data_schema`. -/
structure ValidationResult where
  valid : Bool
  issues : List String
deriving DecidableEq, Repr

/-- Embedding of `EnhancedDataIngestion.validate_data_schema`: unknown
sources validate trivially; otherwise the set of required columns absent
from the batch is reported as one combined issue, a `deal_value` column
with strictly more than 50% nulls adds a second issue, and `valid` is the
emptiness of the issue list.  (Python iterates the set difference in
unspecified hash order; it is modelled in schema declaration order, which
affects only the order of names inside the combined message.) -/
def validate_data_schema (df : DataFrame) (source : String) : ValidationResult :=
  match lookupSchema source with
  | none => ⟨true, []⟩
  | some schema =>
    let missing := schema.required_columns.filter fun c => !df.columns.contains c
    let missingIssues :=
      if missing.isEmpty then []
      else ["Missing required columns: " ++ joinSep ", " missing]
    let nullIssues :=
      if df.columns.contains "deal_value" &&
          decide ((df.nullCount "deal_value" : ℚ) > (df.nrows : ℚ) * 0.5) then
        ["High percentage of missing deal values: " ++
          toString (df.nullCount "deal_value") ++ "/" ++ toString df.nrows]
      else []
    let issues := missingIssues ++ nullIssues
    ⟨issues.isEmpty, issues⟩

/-- Embedding of `EnhancedDataIngestion.get_data_template`, as the column
list of the produced template: empty for an unknown source, otherwise the
schema's required followed by optional columns. -/
def get_data_template (source : String) : List String :=
  match lookupSchema source with
  | none => []
  | some schema => schema.required_columns ++ schema.optional_columns

theorem isSub_append_of_left {α : Type} {p a : List α} (b : List α)
    (h : p <:+: a) : p <:+: a ++ b := by
  obtain ⟨s, t, rfl⟩ := h
  exact ⟨s, t ++ b, by simp⟩

theorem isSub_append_of_right {α : Type} (a : List α) {p b : List α}
    (h : p <:+: b) : p <:+: a ++ b := by
  obtain ⟨s, t, rfl⟩ := h
  exact ⟨a ++ s, t, by simp⟩

theorem mem_joinSep_isSub (sep : String) :
    ∀ (l : List String), ∀ c ∈ l, c.data <:+: (joinSep sep l).data := by
  intro l
  induction l with
  | nil => intro c hc; simp at hc
  | cons x rest ih =>
    intro c hc
    cases rest with
    | nil =>
      rw [List.mem_singleton] at hc
      subst hc
      exact List.infix_refl _
    | cons y ys =>
      rcases List.mem_cons.mp hc with rfl | hmem
      · show c.data <:+: (c ++ sep ++ joinSep sep (y :: ys)).data
        rw [String.data_append, String.data_append]
        exact isSub_append_of_left _ (isSub_append_of_left _ (List.infix_refl _))
      · show c.data <:+: (x ++ sep ++ joinSep sep (y :: ys)).data
        rw [String.data_append]
        exact isSub_append_of_right _ (ih c hmem)

theorem strPrefixB_append_self (a b : List Char) : strPrefixB a (a ++ b) = true :=
  (strPrefixB_iff a (a ++ b)).mpr ⟨b, rfl⟩

theorem strPrefixB_head_ne {a b : Char} (h : (a == b) = false) (p s : List Char) :
    strPrefixB (a :: p) (b :: s) = false := by
  simp [strPrefixB, h]

/-- C4: when at least one required column of the registered schema is
absent, validation returns `valid = false` with at least one issue, a
single combined missing-columns issue contains (as a substring) the name
of every absent required column, and in general `valid` is `true` iff the
issue list is empty. -/
theorem c4_validator_missing_columns (df : DataFrame) (source : String)
    (schema : SourceSchema) (hs : lookupSchema source = some schema)
    (hmiss : ∃ c ∈ schema.required_columns, c ∉ df.columns) :
    (validate_data_schema df source).valid = false ∧
    1 ≤ (validate_data_schema df source).issues.length ∧
    (∃ msg ∈ (validate_data_schema df source).issues,
      ∀ c ∈ schema.required_columns, c ∉ df.columns → c.data <:+: msg.data) ∧
    ∀ (df' : DataFrame) (src' : String),
      ((validate_data_schema df' src').valid = true ↔
        (validate_data_schema df' src').issues = []) := by
  obtain ⟨c₀, hc₀, hc₀n⟩ := hmiss
  have hc₀m : c₀ ∈ schema.required_columns.filter
      (fun c => !df.columns.contains c) := by
    refine List.mem_filter.mpr ⟨hc₀, ?_⟩
    simp [hc₀n]
  have hne : (schema.required_columns.filter
      (fun c => !df.columns.contains c)).isEmpty = false := by
    cases hmf : schema.required_columns.filter (fun c => !df.columns.contains c) with
    | nil => rw [hmf] at hc₀m; simp at hc₀m
    | cons a as => simp
  have hval : validate_data_schema df source =
      ⟨false,
        ("Missing required columns: " ++
          joinSep ", " (schema.required_columns.filter
            (fun c => !df.columns.contains c))) ::
        (if df.columns.contains "deal_value" &&
            decide ((df.nullCount "deal_value" : ℚ) > (df.nrows : ℚ) * 0.5) then
          ["High percentage of missing deal values: " ++
            toString (df.nullCount "deal_value") ++ "/" ++ toString df.nrows]
        else [])⟩ := by
    rw [validate_data_schema, hs]
    simp only [hne, Bool.false_eq_true, if_false, List.singleton_append,
      List.isEmpty_cons]
  refine ⟨?_, ?_, ?_, ?_⟩
  · rw [hval]
  · rw [hval]; simp
  · refine ⟨"Missing required columns: " ++
      joinSep ", " (schema.required_columns.filter
        (fun c => !df.columns.contains c)), ?_, ?_⟩
    · rw [hval]; exact List.mem_cons_self _ _
    · intro c hc hcn
      rw [String.data_append]
      refine isSub_append_of_right _ (mem_joinSep_isSub ", " _ c ?_)
      refine List.mem_filter.mpr ⟨hc, ?_⟩
      simp [hcn]
  · intro df' src'
    cases h' : lookupSchema src' with
    | none =>
      rw [validate_data_schema, h']
      simp
    | some sch =>
      rw [validate_data_schema, h']
      simp only [List.isEmpty_iff]

/-- C4 witness: validating a one-column mergermarket batch. -/
theorem c4_validator_missing_columns_witness :
    (validate_data_schema ⟨2, [("deal_id", [false, false])]⟩ "mergermarket").valid
      = false :=
  (c4_validator_missing_columns ⟨2, [("deal_id", [false, false])]⟩ "mergermarket"
    ⟨["deal_id", "target_name", "acquirer_name", "deal_value",
      "announcement_date"],
     ["industry", "sector", "geography", "deal_type", "status",
      "completion_date"]⟩ rfl
    ⟨"target_name", by decide, by decide⟩).1

/-- Recogniser for the excessive-null issue emitted by
`validate_data_schema` (its fixed message head). -/
def isHighNullIssue (msg : String) : Bool :=
  strPrefixB "High percentage of missing deal values: ".data msg.data

/-- C5: for a batch with a `deal_value` column and a registered source, the
missing-values issue is reported exactly when strictly more than 50% of the
`deal_value` entries are null. -/
theorem c5_null_threshold (df : DataFrame) (source : String)
    (schema : SourceSchema) (hs : lookupSchema source = some schema)
    (hdv : "deal_value" ∈ df.columns) :
    ((validate_data_schema df source).issues.any isHighNullIssue = true ↔
      (df.nullCount "deal_value" : ℚ) > (df.nrows : ℚ) * 0.5) := by
  have hdvb : df.columns.contains "deal_value" = true := by
    simpa using hdv
  have hM : "Missing required columns: ".data =
      'M' :: "issing required columns: ".data := rfl
  have hH : "High percentage of missing deal values: ".data =
      'H' :: "igh percentage of missing deal values: ".data := rfl
  have hMfalse : ∀ t : String, isHighNullIssue
      ("Missing required columns: " ++ t) = false := by
    intro t
    rw [isHighNullIssue, String.data_append, hM, hH, List.cons_append]
    exact strPrefixB_head_ne (by decide) _ _
  have hHtrue : ∀ t : String, isHighNullIssue
      ("High percentage of missing deal values: " ++ t) = true := by
    intro t
    rw [isHighNullIssue, String.data_append]
    exact strPrefixB_append_self _ _
  have hHtrue' : isHighNullIssue
      ("High percentage of missing deal values: " ++
        toString (df.nullCount "deal_value") ++ "/" ++ toString df.nrows) = true := by
    have hassoc : "High percentage of missing deal values: " ++
        toString (df.nullCount "deal_value") ++ "/" ++ toString df.nrows =
        "High percentage of missing deal values: " ++
        (toString (df.nullCount "deal_value") ++ ("/" ++ toString df.nrows)) := by
      simp [String.append_assoc]
    rw [hassoc]
    exact hHtrue _
  have hMissAny :
      ((if (schema.required_columns.filter
            (fun c => !df.columns.contains c)).isEmpty then ([] : List String)
        else ["Missing required columns: " ++
          joinSep ", " (schema.required_columns.filter
            (fun c => !df.columns.contains c))]).any isHighNullIssue) = false := by
    cases hb : (schema.required_columns.filter
        (fun c => !df.columns.contains c)).isEmpty with
    | true => simp
    | false =>
      simp only [Bool.false_eq_true, if_false, List.any_cons, List.any_nil,
        Bool.or_false]
      exact hMfalse _
  have hIss : (validate_data_schema df source).issues =
      (if (schema.required_columns.filter
          (fun c => !df.columns.contains c)).isEmpty then []
       else ["Missing required columns: " ++
         joinSep ", " (schema.required_columns.filter
           (fun c => !df.columns.contains c))]) ++
      (if df.columns.contains "deal_value" &&
          decide ((df.nullCount "deal_value" : ℚ) > (df.nrows : ℚ) * 0.5) then
        ["High percentage of missing deal values: " ++
          toString (df.nullCount "deal_value") ++ "/" ++ toString df.nrows]
       else []) := by
    rw [validate_data_schema, hs]
  rw [hIss, List.any_append, hMissAny, Bool.false_or, hdvb, Bool.true_and]
  by_cases hgt : (df.nullCount "deal_value" : ℚ) > (df.nrows : ℚ) * 0.5
  · rw [decide_eq_true hgt]
    simp [hHtrue', hgt]
  · rw [decide_eq_false hgt]
    simp [hgt]

/-- C5 witness: a five-row batch with three null deal values (60%) is
flagged; with two null deal values (40%) it is not. -/
theorem c5_null_threshold_witness :
    ((validate_data_schema
        ⟨5, [("deal_value", [true, true, true, false, false])]⟩
        "mergermarket").issues.any isHighNullIssue = true ↔
      ((⟨5, [("deal_value", [true, true, true, false, false])]⟩ :
        DataFrame).nullCount "deal_value" : ℚ) >
        ((5 : ℕ) : ℚ) * 0.5) :=
  c5_null_threshold ⟨5, [("deal_value", [true, true, true, false, false])]⟩
    "mergermarket"
    ⟨["deal_id", "target_name", "acquirer_name", "deal_value",
      "announcement_date"],
     ["industry", "sector", "geography", "deal_type", "status",
      "completion_date"]⟩ rfl (by decide)

/-- C9 counterexample: the source never fails on an unregistered source
name — for the unregistered `"custom_source"`, validation returns the
normal value `valid = true` with no issues, and template generation
returns an empty template, instead of failing with `UnknownSourceError`
(no such error exists anywhere in the code). -/
theorem c9_unknown_source_counterexample :
    lookupSchema "custom_source" = none ∧
    validate_data_schema ⟨3, [("foo", [false, false, true])]⟩ "custom_source" =
      ⟨true, []⟩ ∧
    get_data_template "custom_source" = [] :=
  ⟨rfl, rfl, rfl⟩

/-- C9 (amended): for every source name with no registered schema, schema
validation returns the neutral result `valid = true` with an empty issue
list and template generation returns an empty template; neither raises, so
callers proceed with generic ingestion ("no validation possible" is
signalled by the neutral value, not by an `UnknownSourceError`). -/
theorem c9_unknown_source_neutral (source : String)
    (h : lookupSchema source = none) (df : DataFrame) :
    validate_data_schema df source = ⟨true, []⟩ ∧
    get_data_template source = [] := by
  rw [validate_data_schema, get_data_template, h]
  exact ⟨rfl, rfl⟩

/-- C9 witness: the amended statement applied at `"custom_source"`. -/
theorem c9_unknown_source_neutral_witness :
    validate_data_schema ⟨3, [("foo", [false, false, true])]⟩ "custom_source" =
      ⟨true, []⟩ ∧
    get_data_template "custom_source" = [] :=
  c9_unknown_source_neutral "custom_source" rfl ⟨3, [("foo", [false, false, true])]⟩

/-- ASCII lowering of a string, modelling Python `str.lower()` on the
ASCII texts the vocabularies are drawn from. -/
def toLowerStr (s : String) : String :=
  String.mk (s.data.map Char.toLower)

/-- The red-flag vocabulary of `EnhancedDataIngestion`. -/
def red_flag_keywords : List String :=
  ["litigation", "lawsuit", "investigation", "fraud", "bankruptcy",
   "regulatory action", "penalty", "fine", "violation", "compliance",
   "SEC investigation", "management turnover", "resignation", "fired",
   "accounting irregularities", "restatement", "audit", "whistle"]

/-- The deal-event vocabulary of `EnhancedDataIngestion`. -/
def deal_keywords : List String :=
  ["acquisition", "merger", "takeover", "buyout", "investment",
   "strategic partnership", "joint venture", "divestiture", "spin-off",
   "IPO", "going private", "tender offer", "bid", "purchase"]

/-- Positive sentiment vocabulary of `analyze_sentiment`. -/
def positive_words : List String :=
  ["growth", "expansion", "success", "strong", "positive", "good"]

/-- Negative sentiment vocabulary of `analyze_sentiment`. -/
def negative_words : List String :=
  ["decline", "loss", "weak", "negative", "poor", "difficult"]

/-- Embedding of `EnhancedDataIngestion.extract_red_flags`; the argument is
the `content` cell, `none` modelling a NaN cell (`pd.isna`). -/
def extract_red_flags : Option String → String
  | none => ""
  | some text =>
    joinSep ", " (red_flag_keywords.filter fun flag =>
      strContainsSubstr (toLowerStr text) flag)

/-- Embedding of `EnhancedDataIngestion.extract_deal_mentions`. -/
def extract_deal_mentions : Option String → String
  | none => ""
  | some text =>
    joinSep ", " (deal_keywords.filter fun kw =>
      strContainsSubstr (toLowerStr text) kw)

/-- Embedding of `EnhancedDataIngestion.analyze_sentiment`: the positive
and negative scores are the numbers of vocabulary words occurring in the
lowered text (`sum(1 for word in ws if word in text_lower)`). -/
def analyze_sentiment : Option String → String
  | none => "Neutral"
  | some text =>
    let tl := toLowerStr text
    let pos := (positive_words.filter fun w => strContainsSubstr tl w).length
    let neg := (negative_words.filter fun w => strContainsSubstr tl w).length
    if pos > neg then "Positive"
    else if neg > pos then "Negative"
    else "Neutral"

/-- C7: for every text, the classifier answers `Positive` iff the
positive-vocabulary hit count strictly exceeds the negative one,
`Negative` iff the negative count strictly exceeds the positive one, and
`Neutral` exactly on ties (including the 0-0 tie). -/
theorem c7_sentiment_three_buckets (text : String) :
    (analyze_sentiment (some text) = "Positive" ↔
      (positive_words.filter fun w => strContainsSubstr (toLowerStr text) w).length >
      (negative_words.filter fun w => strContainsSubstr (toLowerStr text) w).length) ∧
    (analyze_sentiment (some text) = "Negative" ↔
      (negative_words.filter fun w => strContainsSubstr (toLowerStr text) w).length >
      (positive_words.filter fun w => strContainsSubstr (toLowerStr text) w).length) ∧
    (analyze_sentiment (some text) = "Neutral" ↔
      (positive_words.filter fun w => strContainsSubstr (toLowerStr text) w).length =
      (negative_words.filter fun w => strContainsSubstr (toLowerStr text) w).length) := by
  set p := (positive_words.filter fun w => strContainsSubstr (toLowerStr text) w).length
  set n := (negative_words.filter fun w => strContainsSubstr (toLowerStr text) w).length
  have heq : analyze_sentiment (some text) =
      if p > n then "Positive" else if n > p then "Negative" else "Neutral" := rfl
  rw [heq]
  by_cases h1 : p > n
  · rw [if_pos h1]
    exact ⟨⟨fun _ => h1, fun _ => rfl⟩,
      ⟨fun hc => absurd hc (by decide), fun h2 => absurd h2 (by omega)⟩,
      ⟨fun hc => absurd hc (by decide), fun h2 => absurd h2 (by omega)⟩⟩
  · by_cases h2 : n > p
    · rw [if_neg h1, if_pos h2]
      exact ⟨⟨fun hc => absurd hc (by decide), fun h3 => absurd h3 h1⟩,
        ⟨fun _ => h2, fun _ => rfl⟩,
        ⟨fun hc => absurd hc (by decide), fun h3 => absurd h3 (by omega)⟩⟩
    · rw [if_neg h1, if_neg h2]
      have h3 : p = n := by omega
      exact ⟨⟨fun hc => absurd hc (by decide), fun h4 => absurd h4 h1⟩,
        ⟨fun hc => absurd hc (by decide), fun h4 => absurd h4 h2⟩,
        ⟨fun _ => h3, fun _ => rfl⟩⟩

/-- C10: on a null/NaN content cell (`none`) the three derived-field
extractors return well-defined values without raising: empty red flags,
empty deal mentions, and `Neutral` sentiment; all three are total
functions, so a row with absent free-text content survives normalization. -/
theorem c10_missing_text_defaults :
    extract_red_flags none = "" ∧ extract_deal_mentions none = "" ∧
    analyze_sentiment none = "Neutral" :=
  ⟨rfl, rfl, rfl⟩

/-- Joining char-list groups with a separator character (the char-level
counterpart of `joinSep` for a one-character separator). -/
def joinChar (sep : Char) : List (List Char) → List Char
  | [] => []
  | [g] => g
  | g :: gs => g ++ sep :: joinChar sep gs

/-- Python `s.split(sep)` for a one-character separator, as a list of
strings. -/
def pySplit (s : String) (sep : Char) : List String :=
  (splitCharList sep s.data).map String.mk

theorem splitCharList_ne_nil (sep : Char) : ∀ l, splitCharList sep l ≠ [] := by
  intro l
  induction l with
  | nil => simp [splitCharList]
  | cons c rest ih =>
    rw [splitCharList]
    by_cases hc : c == sep
    · simp [hc]
    · simp only [hc, Bool.false_eq_true, if_false]
      cases hr : splitCharList sep rest with
      | nil => simp
      | cons g gs => simp

theorem splitCharList_sep_not_mem (sep : Char) :
    ∀ l, ∀ g ∈ splitCharList sep l, sep ∉ g := by
  intro l
  induction l with
  | nil =>
    intro g hg
    simp [splitCharList] at hg
    simp [hg]
  | cons c rest ih =>
    intro g hg
    rw [splitCharList] at hg
    by_cases hc : c == sep
    · rw [if_pos hc] at hg
      rcases List.mem_cons.mp hg with rfl | hmem
      · simp
      · exact ih g hmem
    · rw [if_neg hc] at hg
      have hcne : c ≠ sep := by simpa using hc
      cases hr : splitCharList sep rest with
      | nil => exact absurd hr (splitCharList_ne_nil sep rest)
      | cons g0 gs =>
        rw [hr] at hg
        rcases List.mem_cons.mp hg with rfl | hmem
        · intro hmem'
          rcases List.mem_cons.mp hmem' with rfl | hmem''
          · exact hcne rfl
          · exact ih g0 (hr ▸ List.mem_cons_self g0 gs) hmem''
        · exact ih g (hr ▸ List.mem_cons_of_mem g0 hmem)

theorem splitCharList_of_not_mem {sep : Char} {g : List Char} (h : sep ∉ g) :
    splitCharList sep g = [g] := by
  induction g with
  | nil => rfl
  | cons c g' ih =>
    have hc : (c == sep) = false := by
      simp only [beq_eq_false_iff_ne, ne_eq]
      intro hce
      exact h (hce ▸ List.mem_cons_self c g')
    rw [splitCharList, if_neg (by simp [hc])]
    rw [ih fun hm => h (List.mem_cons_of_mem c hm)]

theorem splitCharList_append_sep {sep : Char} {g : List Char} (h : sep ∉ g)
    (t : List Char) :
    splitCharList sep (g ++ sep :: t) = g :: splitCharList sep t := by
  induction g with
  | nil => simp [splitCharList]
  | cons c g' ih =>
    have hc : (c == sep) = false := by
      simp only [beq_eq_false_iff_ne, ne_eq]
      intro hce
      exact h (hce ▸ List.mem_cons_self c g')
    rw [List.cons_append, splitCharList, if_neg (by simp [hc]),
      ih fun hm => h (List.mem_cons_of_mem c hm)]

theorem splitCharList_joinChar (sep : Char) :
    ∀ gs : List (List Char), gs ≠ [] → (∀ g ∈ gs, sep ∉ g) →
      splitCharList sep (joinChar sep gs) = gs := by
  intro gs
  induction gs with
  | nil => intro h; exact absurd rfl h
  | cons g rest ih =>
    intro _ hfree
    cases rest with
    | nil =>
      show splitCharList sep g = [g]
      exact splitCharList_of_not_mem (hfree g (List.mem_cons_self g []))
    | cons y ys =>
      show splitCharList sep (g ++ sep :: joinChar sep (y :: ys)) = g :: y :: ys
      rw [splitCharList_append_sep (hfree g (List.mem_cons_self g _))]
      rw [ih (by simp) fun g' hg' => hfree g' (List.mem_cons_of_mem g hg')]

theorem joinSep_comma_data :
    ∀ l : List String, (joinSep "," l).data = joinChar ',' (l.map String.data) := by
  intro l
  induction l with
  | nil => rfl
  | cons x rest ih =>
    cases rest with
    | nil => rfl
    | cons y ys =>
      show (x ++ "," ++ joinSep "," (y :: ys)).data = _
      rw [String.data_append, String.data_append, ih, List.append_assoc]
      rfl

theorem pySplit_data_free (ts : String) (sep : Char) :
    ∀ s ∈ pySplit ts sep, sep ∉ s.data := by
  intro s hs
  rcases List.mem_map.mp hs with ⟨g, hg, rfl⟩
  exact splitCharList_sep_not_mem sep ts.data g hg

theorem pySplit_single {tag : String} (h : ',' ∉ tag.data) :
    pySplit tag ',' = [tag] := by
  rw [pySplit, splitCharList_of_not_mem h]
  rfl

theorem pySplit_joinSep {l : List String} (hne : l ≠ [])
    (hfree : ∀ s ∈ l, ',' ∉ s.data) :
    pySplit (joinSep "," l) ',' = l := by
  rw [pySplit, joinSep_comma_data, splitCharList_joinChar]
  · rw [List.map_map]
    exact List.map_id'' (fun s => rfl) l
  · simpa using hne
  · intro g hg
    rcases List.mem_map.mp hg with ⟨s, hs, rfl⟩
    exact hfree s hs

/-- The comma-split tag list that the branch logic of
`apply_company_tags` effectively starts from: empty for a NULL or empty
stored tag string (Python truthiness of `existing_tags[0]`), otherwise the
comma split. -/
def currentTags : Option String → List String
  | some ts => if ts = "" then [] else pySplit ts ','
  | none => []

/-- The new tag string computed by the loop body of `apply_company_tags`
in `main_app.py`: keep the stored string when the tag is already present
in its comma split, append (comma-joined) when absent, and start fresh
from `tag` when the stored tags are NULL or empty. -/
def newTagString (o : Option String) (tag : String) : String :=
  match o with
  | some ts =>
    if ts = "" then tag
    else if (pySplit ts ',').contains tag then ts
    else joinSep "," (pySplit ts ',' ++ [tag])
  | none => tag

/-- One iteration of the `apply_company_tags` loop: `fetchone` on the
first row whose `company_name` matches (no row: the UPDATE touches
nothing), then the UPDATE writes the new tag string to every matching
row. -/
def applyTagOnce (companies : List (String × Option String))
    (name tag : String) : List (String × Option String) :=
  match companies.find? (fun r => r.1 == name) with
  | none => companies
  | some row =>
    companies.map fun r =>
      if r.1 == name then (r.1, some (newTagString row.2 tag)) else r

/-- Embedding of `apply_company_tags(company_names, tag)` from
`main_app.py`: the loop body applied to each listed company in order. -/
def apply_company_tags (companies : List (String × Option String))
    (company_names : List String) (tag : String) :
    List (String × Option String) :=
  company_names.foldl (fun cs n => applyTagOnce cs n tag) companies

theorem count_pySplit_newTagString {tag : String} (o : Option String)
    (hcf : ',' ∉ tag.data) (hcount : List.count tag (currentTags o) ≤ 1) :
    List.count tag (pySplit (newTagString o tag) ',') = 1 := by
  match o with
  | none =>
    rw [newTagString, pySplit_single hcf]
    simp
  | some ts =>
    by_cases hts : ts = ""
    · rw [newTagString, if_pos hts, pySplit_single hcf]
      simp
    · by_cases hc : (pySplit ts ',').contains tag = true
      · rw [newTagString, if_neg hts, if_pos hc]
        have hmem : tag ∈ pySplit ts ',' := by simpa using hc
        have hne : List.count tag (pySplit ts ',') ≠ 0 := by
          intro h0
          exact List.count_eq_zero.mp h0 hmem
        have hle : List.count tag (pySplit ts ',') ≤ 1 := by
          have := hcount
          rw [currentTags, if_neg hts] at this
          exact this
        omega
      · rw [newTagString, if_neg hts, if_neg hc]
        have hzero : List.count tag (pySplit ts ',') = 0 :=
          List.count_eq_zero.mpr (by simpa using hc)
        rw [pySplit_joinSep (by simp) ?_, List.count_append, hzero]
        · simp
        · intro s hs
          rcases List.mem_append.mp hs with hs' | hs'
          · exact pySplit_data_free ts ',' s hs'
          · rw [List.mem_singleton] at hs'
            subst hs'
            exact hcf

theorem newTagString_of_mem {ts tag : String}
    (hmem : tag ∈ pySplit ts ',') : newTagString (some ts) tag = ts := by
  by_cases hts : ts = ""
  · subst hts
    have htag : tag = "" := by
      simpa [pySplit, splitCharList] using hmem
    subst htag
    rw [newTagString, if_pos rfl]
  · rw [newTagString, if_neg hts, if_pos (by simpa using hmem)]

theorem find?_map_keeps_key (companies : List (String × Option String))
    (name : String) (f : String × Option String → String × Option String)
    (hf : ∀ r, (f r).1 = r.1) :
    (companies.map f).find? (fun r => r.1 == name) =
      (companies.find? (fun r => r.1 == name)).map f := by
  rw [List.find?_map]
  have hp : ((fun r : String × Option String => r.1 == name) ∘ f) =
      (fun r : String × Option String => r.1 == name) := by
    funext r
    simp [Function.comp, hf r]
  rw [hp]

/-- C8 counterexample: the claim fails as stated when the stored tag
string already holds the tag twice (reachable via CSV company import,
which accepts arbitrary tag strings).  For the company row
`("Acme", "t,t")`, applying tag `"t"` twice leaves the stored string
`"t,t"`, whose comma split contains two occurrences of `"t"`, not
exactly one. -/
theorem c8_tag_twice_counterexample :
    apply_company_tags
        (apply_company_tags [("Acme", some "t,t")] ["Acme"] "t") ["Acme"] "t" =
      [("Acme", some "t,t")] ∧
    List.count "t" (pySplit "t,t" ',') = 2 := by
  constructor
  · rfl
  · rfl

/-- C8 (amended): for every company whose row exists, whose current
comma-split tag list contains the tag at most once, and every comma-free
tag string: after applying the tag once, every row of that company stores
a tag string whose comma split contains exactly one occurrence of the
tag, and applying the tag a second time does not change the table at all
(adding an already-present tag is a no-op). -/
theorem c8_tag_mutation_idempotent (companies : List (String × Option String))
    (name tag : String) (row : String × Option String)
    (hrow : companies.find? (fun r => r.1 == name) = some row)
    (hcf : ',' ∉ tag.data)
    (hcount : List.count tag (currentTags row.2) ≤ 1) :
    apply_company_tags (apply_company_tags companies [name] tag) [name] tag =
      apply_company_tags companies [name] tag ∧
    ∀ r ∈ apply_company_tags companies [name] tag, r.1 = name →
      ∃ ts, r.2 = some ts ∧ List.count tag (pySplit ts ',') = 1 := by
  obtain ⟨rname, rtags⟩ := row
  have happly : ∀ (cs : List (String × Option String)) (x : String)
      (o : Option String), cs.find? (fun r => r.1 == name) = some (x, o) →
      applyTagOnce cs name tag =
        cs.map (fun r =>
          if r.1 == name then (r.1, some (newTagString o tag)) else r) := by
    intro cs x o hf
    rw [applyTagOnce, hf]
  have hcount1 : List.count tag (pySplit (newTagString rtags tag) ',') = 1 :=
    count_pySplit_newTagString rtags hcf hcount
  have hmemNew : tag ∈ pySplit (newTagString rtags tag) ',' := by
    by_contra hno
    rw [List.count_eq_zero.mpr hno] at hcount1
    exact absurd hcount1 (by omega)
  have h1 : apply_company_tags companies [name] tag =
      companies.map (fun r =>
        if r.1 == name then (r.1, some (newTagString rtags tag)) else r) :=
    happly companies rname rtags hrow
  have hrowname : (rname == name) = true := by
    have h := List.find?_some hrow
    exact h
  have hrn : rname = name := by simpa using hrowname
  have hfkey : ∀ r : String × Option String,
      ((if r.1 == name then (r.1, some (newTagString rtags tag)) else r) :
        String × Option String).1 = r.1 := by
    intro r
    by_cases h : (r.1 == name) = true <;> simp [h]
  have hfind1 : (companies.map (fun r =>
      if r.1 == name then (r.1, some (newTagString rtags tag)) else r)).find?
        (fun r => r.1 == name) = some (rname, some (newTagString rtags tag)) := by
    rw [find?_map_keeps_key companies name _ hfkey, hrow]
    simp [hrn]
  constructor
  · rw [h1]
    show applyTagOnce _ name tag = _
    rw [happly _ rname (some (newTagString rtags tag)) hfind1,
      newTagString_of_mem hmemNew]
    refine (List.map_congr_left ?_).trans (List.map_id _)
    intro r hr
    rcases List.mem_map.mp hr with ⟨r0, _, rfl⟩
    by_cases h : (r0.1 == name) = true
    · simp [h]
    · simp [h]
  · intro r hr hrname2
    rw [h1] at hr
    rcases List.mem_map.mp hr with ⟨r0, _, rfl⟩
    by_cases h : (r0.1 == name) = true
    · rw [if_pos h]
      exact ⟨newTagString rtags tag, rfl, hcount1⟩
    · rw [if_neg h] at hrname2
      exact absurd (by simp [hrname2] : (r0.1 == name) = true) h

/-- C8 witness: applying `"Potential Target"` to a company currently
tagged `"Existing"`. -/
theorem c8_tag_mutation_idempotent_witness :
    apply_company_tags
        (apply_company_tags [("Acme", some "Existing")] ["Acme"]
          "Potential Target") ["Acme"] "Potential Target" =
      apply_company_tags [("Acme", some "Existing")] ["Acme"]
        "Potential Target" ∧
    ∀ r ∈ apply_company_tags [("Acme", some "Existing")] ["Acme"]
        "Potential Target", r.1 = "Acme" →
      ∃ ts, r.2 = some ts ∧
        List.count "Potential Target" (pySplit ts ',') = 1 :=
  c8_tag_mutation_idempotent [("Acme", some "Existing")] "Acme"
    "Potential Target" ("Acme", some "Existing") rfl (by decide) (by decide)
